import Mathlib

/-!
Shallow embedding of the resilience layer of the teneo-agent-sdk repository
(package `network`): the `CircuitBreaker`, the `GoroutineSupervisor`, the
`HealthMonitor` and the `ReconnectionManager`, together with theorems that
settle the specification claims about them.

Modelling conventions:
* `time.Time` and `time.Duration` are nanosecond counts, embedded as `Int`;
  the current wall-clock instant is passed explicitly as a `now : Int`
  argument to every operation that reads `time.Now()` / `time.Since`.
* Go `int` fields are embedded as `Int` (no claim depends on 64-bit
  wrap-around, and no execution relevant to the claims approaches it).
* Mutex/atomic plumbing is dropped: the claims are about the sequential
  state transformations, so every method becomes a pure state-passing
  function `State → ... → State`.
* Callbacks (`onStateChange`, `OnFailure`, `onStatusChange`) carry no state
  the claims mention, so they are omitted from the state records.
-/

namespace TeneoAgentSDK
namespace Network

/-- Embeds Go's `CircuitState` (`CircuitClosed | CircuitOpen | CircuitHalfOpen`). -/
inductive CircuitState
  | circuitClosed
  | circuitOpen
  | circuitHalfOpen
deriving DecidableEq, Repr

/-- Embeds the mutable state and configuration of Go's `CircuitBreaker` struct. -/
structure CircuitBreaker where
  maxFailures : Int
  resetTimeout : Int
  halfOpenRequests : Int
  state : CircuitState
  failures : Int
  successCount : Int
  lastFailTime : Int
  halfOpenAttempts : Int
deriving DecidableEq, Repr

/-- Embeds `NewCircuitBreaker`: `halfOpenRequests` = 1, state `CircuitClosed`,
all remaining fields at their Go zero values. -/
def NewCircuitBreaker (maxFailures resetTimeout : Int) : CircuitBreaker :=
  { maxFailures := maxFailures
    resetTimeout := resetTimeout
    halfOpenRequests := 1
    state := CircuitState.circuitClosed
    failures := 0
    successCount := 0
    lastFailTime := 0
    halfOpenAttempts := 0 }

/-- Embeds `transitionToLocked`: no-op when the state is unchanged; otherwise
store the new state and, when the new state is `CircuitHalfOpen`, reset
`halfOpenAttempts` and `successCount`. -/
def transitionToLocked (cb : CircuitBreaker) (newState : CircuitState) : CircuitBreaker :=
  if cb.state = newState then cb
  else
    let cb1 := { cb with state := newState }
    if newState = CircuitState.circuitHalfOpen then
      { cb1 with halfOpenAttempts := 0, successCount := 0 }
    else cb1

/-- Embeds `CanAttempt`, returning the Go boolean result together with the
updated breaker.  `time.Since(cb.lastFailTime) > cb.resetTimeout` becomes
`now - cb.lastFailTime > cb.resetTimeout` (strict, as in the source). -/
def CanAttempt (cb : CircuitBreaker) (now : Int) : Bool × CircuitBreaker :=
  match cb.state with
  | CircuitState.circuitClosed => (true, cb)
  | CircuitState.circuitOpen =>
      if now - cb.lastFailTime > cb.resetTimeout then
        (true, transitionToLocked cb CircuitState.circuitHalfOpen)
      else
        (false, cb)
  | CircuitState.circuitHalfOpen =>
      if cb.halfOpenAttempts < cb.halfOpenRequests then
        (true, { cb with halfOpenAttempts := cb.halfOpenAttempts + 1 })
      else
        (false, cb)

/-- Embeds `recordFailure` (the `currentState` argument is the state read by
`RecordResult` before taking the lock, which in this sequential model equals
`cb.state`). -/
def recordFailure (cb : CircuitBreaker) (currentState : CircuitState) (now : Int) :
    CircuitBreaker :=
  let cb1 := { cb with failures := cb.failures + 1, lastFailTime := now }
  match currentState with
  | CircuitState.circuitClosed =>
      if cb1.failures ≥ cb1.maxFailures then
        transitionToLocked cb1 CircuitState.circuitOpen
      else cb1
  | CircuitState.circuitHalfOpen =>
      { transitionToLocked cb1 CircuitState.circuitOpen with halfOpenAttempts := 0 }
  | CircuitState.circuitOpen => cb1

/-- Embeds `recordSuccess`. -/
def recordSuccess (cb : CircuitBreaker) (currentState : CircuitState) : CircuitBreaker :=
  match currentState with
  | CircuitState.circuitHalfOpen =>
      let cb1 := { cb with successCount := cb.successCount + 1 }
      if cb1.successCount ≥ cb1.halfOpenRequests then
        transitionToLocked
          { cb1 with failures := 0, successCount := 0, halfOpenAttempts := 0 }
          CircuitState.circuitClosed
      else cb1
  | CircuitState.circuitClosed =>
      if cb.failures > 0 then { cb with failures := 0 } else cb
  | CircuitState.circuitOpen => cb

/-- Embeds `RecordResult`; the Go `err error` argument becomes the boolean
`isErr` (`true` ↔ `err != nil`). -/
def RecordResult (cb : CircuitBreaker) (isErr : Bool) (now : Int) : CircuitBreaker :=
  if isErr then recordFailure cb cb.state now else recordSuccess cb cb.state

/-- Result of `Call`: either the synthetic "circuit breaker is open" error, or
the guarded function's own result (`true` ↔ the function returned an error). -/
inductive CallResult
  | circuitOpenError
  | fnResult (isErr : Bool)
deriving DecidableEq, Repr

/-- Embeds `Call`.  The guarded function `fn` is abstracted by the error value
`fnErr` it would return; the second component records whether `fn` was
invoked at all. -/
def Call (cb : CircuitBreaker) (now : Int) (fnErr : Bool) :
    CallResult × Bool × CircuitBreaker :=
  let r := CanAttempt cb now
  if r.1 then
    (CallResult.fnResult fnErr, true, RecordResult r.2 fnErr now)
  else
    (CallResult.circuitOpenError, false, r.2)

/-- Runs `n` consecutive `CanAttempt` calls at instant `now` with no results
recorded in between, returning how many of them returned `true` together
with the final breaker state. -/
def canAttemptRun (cb : CircuitBreaker) (now : Int) : Nat → Nat × CircuitBreaker
  | 0 => (0, cb)
  | n + 1 =>
      let r := CanAttempt cb now
      let rest := canAttemptRun r.2 now n
      ((if r.1 then 1 else 0) + rest.1, rest.2)

/-! ## Goroutine supervisor (`supervisor.go`) -/

/-- Embeds Go's `RestartPolicy`.  `BackoffFactor` is a `float64` in the
source; it is embedded as an exact rational, with the `float64 → Duration`
conversion modelled by truncation toward zero (`ratTruncToInt`). -/
structure RestartPolicy where
  MaxRestarts : Int
  RestartDelay : Int
  BackoffFactor : ℚ
  MaxBackoffDelay : Int
deriving DecidableEq, Repr

/-- Embeds `DefaultRestartPolicy`. -/
def DefaultRestartPolicy : RestartPolicy :=
  { MaxRestarts := 5
    RestartDelay := 1000000000
    BackoffFactor := 2
    MaxBackoffDelay := 30000000000 }

/-- Go's conversion of a `float64` to `time.Duration` truncates toward zero:
floor for non-negative values, ceiling for negative ones. -/
def ratTruncToInt (q : ℚ) : Int :=
  if 0 ≤ q then ⌊q⌋ else ⌈q⌉

/-- One iteration block of the `for i := 1; i < restartCount; i++` loop body
of `calculateBackoff`, iterated `n` times: multiply by the factor (with the
`time.Duration(float64(delay) * factor)` truncation), and cap-and-break at
`MaxBackoffDelay`. -/
def backoffLoop (factor : ℚ) (maxDelay : Int) : Int → Nat → Int
  | delay, 0 => delay
  | delay, n + 1 =>
      let d := ratTruncToInt ((delay : ℚ) * factor)
      if d > maxDelay then maxDelay else backoffLoop factor maxDelay d n

/-- Embeds `calculateBackoff`: starts from `RestartPolicy.RestartDelay` and
runs the loop body `restartCount - 1` times (the Go loop runs for
`i = 1 .. restartCount-1`). -/
def calculateBackoff (policy : RestartPolicy) (restartCount : Int) : Int :=
  backoffLoop policy.BackoffFactor policy.MaxBackoffDelay policy.RestartDelay
    (restartCount - 1).toNat

/-- Embeds the `runGoroutine` loop specialised to the hypotheses of the
claim: the work function returns a non-nil error on every invocation, the
context is never cancelled, and the supervisor keeps running.  Under those
hypotheses each loop iteration invokes the function once and increments
`restartCount`; the loop exits as soon as `restartCount > MaxRestarts`.
Returns (number of work-function invocations, final `restartCount`). -/
def runGoroutineAlwaysFail (maxRestarts : Int) (restartCount : Int) : Nat × Int :=
  if h : restartCount + 1 > maxRestarts then
    (1, restartCount + 1)
  else
    ((runGoroutineAlwaysFail maxRestarts (restartCount + 1)).1 + 1,
      (runGoroutineAlwaysFail maxRestarts (restartCount + 1)).2)
termination_by (maxRestarts - restartCount).toNat
decreasing_by
  all_goals omega

/-! ## Health monitor (`health_monitor.go`) -/

/-- Embeds Go's `HealthStatus`. -/
inductive HealthStatus
  | healthUnknown
  | healthHealthy
  | healthDegraded
  | healthUnhealthy
deriving DecidableEq, Repr

/-- Embeds Go's `ConnectionMetrics` (the `LastError error` field becomes the
flag `hasLastError`, since only presence matters to the claims). -/
structure ConnectionMetrics where
  TotalMessages : Int
  SentMessages : Int
  ReceivedMessages : Int
  FailedMessages : Int
  ReconnectAttempts : Int
  SuccessfulReconnects : Int
  LastMessageSent : Int
  LastMessageReceived : Int
  LastReconnect : Int
  ConnectionEstablished : Int
  IsConnected : Bool
  IsAuthenticated : Bool
  CurrentLatency : Int
  AverageLatency : Int
  ConsecutiveErrors : Int
  hasLastError : Bool
  LastErrorTime : Int
deriving DecidableEq, Repr

/-- The Go zero value of `ConnectionMetrics`. -/
def ConnectionMetrics.zero : ConnectionMetrics :=
  { TotalMessages := 0, SentMessages := 0, ReceivedMessages := 0
    FailedMessages := 0, ReconnectAttempts := 0, SuccessfulReconnects := 0
    LastMessageSent := 0, LastMessageReceived := 0, LastReconnect := 0
    ConnectionEstablished := 0, IsConnected := false, IsAuthenticated := false
    CurrentLatency := 0, AverageLatency := 0, ConsecutiveErrors := 0
    hasLastError := false, LastErrorTime := 0 }

/-- Embeds the state of Go's `HealthMonitor` (context, waitgroup and the two
callback fields are concurrency/notification plumbing and are omitted;
`healthCheckFunc` is passed explicitly to `performHealthCheck`). -/
structure HealthMonitor where
  metrics : ConnectionMetrics
  status : HealthStatus
  checkInterval : Int
  unhealthyThreshold : Int
  degradedThreshold : Int
  latencyWindow : List Int
  maxLatencySamples : Int
deriving DecidableEq, Repr

/-- Embeds `NewHealthMonitor`. -/
def NewHealthMonitor (checkInterval : Int) : HealthMonitor :=
  { metrics := ConnectionMetrics.zero
    status := HealthStatus.healthUnknown
    checkInterval := checkInterval
    unhealthyThreshold := 5
    degradedThreshold := 3
    latencyWindow := []
    maxLatencySamples := 100 }

/-- Embeds `updateStatus` (the asynchronous `onStatusChange` notification is
dropped; the stored status update is kept). -/
def updateStatus (hm : HealthMonitor) (newStatus : HealthStatus) : HealthMonitor :=
  if hm.status = newStatus then hm else { hm with status := newStatus }

/-- Embeds `performHealthCheck`.  The probe `healthCheckFunc` is abstracted by
`probe : Option Bool`: `none` when no probe function is set (the method
returns immediately), `some isErr` for the error value the probe returns. -/
def performHealthCheck (hm : HealthMonitor) (probe : Option Bool) (now : Int) :
    HealthMonitor :=
  match probe with
  | none => hm
  | some isErr =>
      let m := hm.metrics
      let m1 :=
        if isErr then
          { m with ConsecutiveErrors := m.ConsecutiveErrors + 1
                   hasLastError := true, LastErrorTime := now }
        else
          { m with ConsecutiveErrors := 0 }
      let consecutiveErrors := m1.ConsecutiveErrors
      let newStatus :=
        if consecutiveErrors = 0 then HealthStatus.healthHealthy
        else if consecutiveErrors ≥ hm.unhealthyThreshold then HealthStatus.healthUnhealthy
        else if consecutiveErrors ≥ hm.degradedThreshold then HealthStatus.healthDegraded
        else HealthStatus.healthHealthy
      updateStatus { hm with metrics := m1 } newStatus

/-- Embeds `RecordMessageSent`. -/
def RecordMessageSent (hm : HealthMonitor) (now : Int) : HealthMonitor :=
  { hm with metrics := { hm.metrics with
      TotalMessages := hm.metrics.TotalMessages + 1
      SentMessages := hm.metrics.SentMessages + 1
      LastMessageSent := now } }

/-- Embeds `RecordMessageReceived`. -/
def RecordMessageReceived (hm : HealthMonitor) (now : Int) : HealthMonitor :=
  { hm with metrics := { hm.metrics with
      TotalMessages := hm.metrics.TotalMessages + 1
      ReceivedMessages := hm.metrics.ReceivedMessages + 1
      LastMessageReceived := now } }

/-- Embeds `RecordMessageFailed`. -/
def RecordMessageFailed (hm : HealthMonitor) : HealthMonitor :=
  { hm with metrics := { hm.metrics with
      FailedMessages := hm.metrics.FailedMessages + 1
      ConsecutiveErrors := hm.metrics.ConsecutiveErrors + 1 } }

/-- Embeds `RecordReconnectAttempt`. -/
def RecordReconnectAttempt (hm : HealthMonitor) (success : Bool) (now : Int) :
    HealthMonitor :=
  let m := { hm.metrics with ReconnectAttempts := hm.metrics.ReconnectAttempts + 1 }
  if success then
    { hm with metrics := { m with
        SuccessfulReconnects := m.SuccessfulReconnects + 1
        LastReconnect := now
        ConsecutiveErrors := 0 } }
  else
    { hm with metrics := m }

/-- Embeds `RecordConnectionEstablished`. -/
def RecordConnectionEstablished (hm : HealthMonitor) (now : Int) : HealthMonitor :=
  { hm with metrics := { hm.metrics with
      ConnectionEstablished := now
      IsConnected := true
      ConsecutiveErrors := 0 } }

/-- Embeds `RecordLatency`: append the sample, trim the window to the last
`maxLatencySamples` entries when it overflows, and recompute the average as
the (Go-truncated) integer mean of the retained samples. -/
def RecordLatency (hm : HealthMonitor) (latency : Int) : HealthMonitor :=
  let w0 := hm.latencyWindow ++ [latency]
  let w :=
    if w0.length > hm.maxLatencySamples.toNat then
      w0.drop (w0.length - hm.maxLatencySamples.toNat)
    else w0
  let total := w.foldl (· + ·) 0
  let avgLatency := Int.tdiv total (w.length : Int)
  { hm with
    latencyWindow := w
    metrics := { hm.metrics with
      CurrentLatency := latency
      AverageLatency := avgLatency } }

/-! ## Reconnection manager (`connection.go`) -/

/-- Embeds Go's `ReconnectionManager`; the pluggable `backoffFunc` becomes an
`Option` of a function from the attempt count to a delay. -/
structure ReconnectionManager where
  enabled : Bool
  attempts : Int
  maxAttempts : Int
  delay : Int
  backoffFunc : Option (Int → Int)

/-- Embeds `ShouldReconnect`. -/
def ShouldReconnect (r : ReconnectionManager) : Bool :=
  r.enabled && r.attempts < r.maxAttempts

/-- Embeds `NextBackoff`. -/
def NextBackoff (r : ReconnectionManager) : Int :=
  match r.backoffFunc with
  | some f => f r.attempts
  | none => r.delay

/-- Embeds `Reset`. -/
def Reset (r : ReconnectionManager) : ReconnectionManager :=
  { r with attempts := 0 }

/-- Embeds `IncrementAttempts`. -/
def IncrementAttempts (r : ReconnectionManager) : ReconnectionManager :=
  { r with attempts := r.attempts + 1 }

/-! ## Theorems -/

/-- While the breaker sits in `CircuitHalfOpen`, a run of `n` `CanAttempt`
calls with no results recorded returns `true` exactly
`min n (halfOpenRequests - halfOpenAttempts)` times, each `true` consuming
one trial slot. -/
theorem canAttemptRun_halfOpen_spec (now : Int) :
    ∀ (n : Nat) (cb : CircuitBreaker), cb.state = CircuitState.circuitHalfOpen →
      (canAttemptRun cb now n).1 =
        min n (cb.halfOpenRequests - cb.halfOpenAttempts).toNat ∧
      (canAttemptRun cb now n).2 =
        { cb with halfOpenAttempts := cb.halfOpenAttempts +
            ((min n (cb.halfOpenRequests - cb.halfOpenAttempts).toNat : Nat) : Int) } := by
  intro n
  induction n with
  | zero =>
      intro cb h
      refine ⟨by simp [canAttemptRun], ?_⟩
      simp [canAttemptRun]
  | succ n ih =>
      intro cb h
      obtain ⟨mf, rt, hor, st, f, sc, lft, hoa⟩ := cb
      have hst : st = CircuitState.circuitHalfOpen := h
      subst hst
      by_cases hlt : hoa < hor
      · have step :
            CanAttempt
              ⟨mf, rt, hor, CircuitState.circuitHalfOpen, f, sc, lft, hoa⟩ now =
            (true, ⟨mf, rt, hor, CircuitState.circuitHalfOpen, f, sc, lft, hoa + 1⟩) := by
          simp [CanAttempt, hlt]
        have rest := ih ⟨mf, rt, hor, CircuitState.circuitHalfOpen, f, sc, lft, hoa + 1⟩ rfl
        try dsimp only at rest
        simp only [canAttemptRun, step]
        refine ⟨?_, ?_⟩
        · rw [rest.1]
          try simp
          all_goals omega
        · rw [rest.2]
          try simp [CircuitBreaker.mk.injEq]
          all_goals omega
      · have step :
            CanAttempt
              ⟨mf, rt, hor, CircuitState.circuitHalfOpen, f, sc, lft, hoa⟩ now =
            (false, ⟨mf, rt, hor, CircuitState.circuitHalfOpen, f, sc, lft, hoa⟩) := by
          simp [CanAttempt, hlt]
        have rest := ih ⟨mf, rt, hor, CircuitState.circuitHalfOpen, f, sc, lft, hoa⟩ rfl
        try dsimp only at rest
        simp only [canAttemptRun, step]
        refine ⟨?_, ?_⟩
        · rw [rest.1]
          try simp
          all_goals omega
        · rw [rest.2]
          try simp [CircuitBreaker.mk.injEq]
          all_goals omega

/-- C1 counterexample: with the default `halfOpenRequests = 1`, (a) at an
elapsed time of exactly `resetTimeout` the next `CanAttempt` still returns
`false` (the source comparison is strict), and (b) after the timeout has
elapsed, a run of `CanAttempt` calls with no results recorded returns `true`
twice — the transitioning call does not consume a trial slot — whereas the
claim says the total equals `halfOpenRequests = 1`. -/
theorem canAttempt_trial_budget_counterexample :
    ((CanAttempt
        { NewCircuitBreaker 3 100 with
            state := CircuitState.circuitOpen, failures := 3, lastFailTime := 0 }
        100).1 = false) ∧
    (NewCircuitBreaker 3 100).halfOpenRequests = 1 ∧
    (canAttemptRun
        { NewCircuitBreaker 3 100 with
            state := CircuitState.circuitOpen, failures := 3, lastFailTime := 0 }
        150 4).1 = 2 := by
  decide

/-- C1 (amended): once strictly more than `resetTimeout` has elapsed since the
last recorded failure, the next `CanAttempt` call transitions the breaker to
`HalfOpen` and returns `true`; while the breaker remains `HalfOpen` with no
results recorded, the total number of `CanAttempt` calls returning `true`
(including the transitioning call) equals `halfOpenRequests + 1`, and every
further `CanAttempt` call returns `false`. -/
theorem canAttempt_open_to_halfOpen_trial_budget
    (cb : CircuitBreaker) (now : Int) (n m : Nat)
    (hstate : cb.state = CircuitState.circuitOpen)
    (helapsed : now - cb.lastFailTime > cb.resetTimeout)
    (hreq : 0 ≤ cb.halfOpenRequests) :
    (CanAttempt cb now).1 = true ∧
    (CanAttempt cb now).2.state = CircuitState.circuitHalfOpen ∧
    (canAttemptRun cb now (n + 1)).1 = min (n + 1) (cb.halfOpenRequests.toNat + 1) ∧
    (CanAttempt
        (canAttemptRun cb now ((cb.halfOpenRequests.toNat + m) + 1)).2 now).1 = false := by
  obtain ⟨mf, rt, hor, st, f, sc, lft, hoa⟩ := cb
  have hst : st = CircuitState.circuitOpen := hstate
  subst hst
  have hel : now - lft > rt := helapsed
  have hr : (0 : Int) ≤ hor := hreq
  have step :
      CanAttempt ⟨mf, rt, hor, CircuitState.circuitOpen, f, sc, lft, hoa⟩ now =
      (true, ⟨mf, rt, hor, CircuitState.circuitHalfOpen, f, 0, lft, 0⟩) := by
    simp [CanAttempt, transitionToLocked, hel]
  refine ⟨by rw [step], by rw [step], ?_, ?_⟩
  · have rest := canAttemptRun_halfOpen_spec now n
      ⟨mf, rt, hor, CircuitState.circuitHalfOpen, f, 0, lft, 0⟩ rfl
    try dsimp only at rest
    simp only [canAttemptRun, step]
    rw [rest.1]
    try simp
    all_goals omega
  · have rest := canAttemptRun_halfOpen_spec now (hor.toNat + m)
      ⟨mf, rt, hor, CircuitState.circuitHalfOpen, f, 0, lft, 0⟩ rfl
    try dsimp only at rest
    simp only [canAttemptRun, step]
    rw [rest.2]
    try dsimp only
    simp only [CanAttempt]
    have hmin : ¬ ((0 : Int) + ((min (hor.toNat + m) (hor - 0).toNat : Nat) : Int) < hor) := by
      omega
    simp [hmin]

/-- Witness for `canAttempt_open_to_halfOpen_trial_budget` at a concrete
breaker with `halfOpenRequests = 1`. -/
theorem canAttempt_open_to_halfOpen_trial_budget_witness :
    (CanAttempt
        { NewCircuitBreaker 3 100 with
            state := CircuitState.circuitOpen, failures := 3, lastFailTime := 0 }
        150).1 = true ∧
    (CanAttempt
        { NewCircuitBreaker 3 100 with
            state := CircuitState.circuitOpen, failures := 3, lastFailTime := 0 }
        150).2.state = CircuitState.circuitHalfOpen ∧
    (canAttemptRun
        { NewCircuitBreaker 3 100 with
            state := CircuitState.circuitOpen, failures := 3, lastFailTime := 0 }
        150 (2 + 1)).1 =
      min (2 + 1)
        (({ NewCircuitBreaker 3 100 with
              state := CircuitState.circuitOpen, failures := 3, lastFailTime := 0 }
            : CircuitBreaker).halfOpenRequests.toNat + 1) ∧
    (CanAttempt
        (canAttemptRun
            { NewCircuitBreaker 3 100 with
                state := CircuitState.circuitOpen, failures := 3, lastFailTime := 0 }
            150
            ((({ NewCircuitBreaker 3 100 with
                   state := CircuitState.circuitOpen, failures := 3, lastFailTime := 0 }
                 : CircuitBreaker).halfOpenRequests.toNat + 0) + 1)).2 150).1 = false :=
  canAttempt_open_to_halfOpen_trial_budget
    { NewCircuitBreaker 3 100 with
        state := CircuitState.circuitOpen, failures := 3, lastFailTime := 0 }
    150 2 0 rfl (by decide) (by decide)

/-- C2 counterexample: a breaker with `maxFailures = 1` in `Closed` receives
one failing `RecordResult`; the state changes `Closed → Open` but the failure
counter is 1 afterwards, not reset to 0. -/
theorem closed_to_open_failures_not_reset_counterexample :
    (NewCircuitBreaker 1 100).state = CircuitState.circuitClosed ∧
    (RecordResult (NewCircuitBreaker 1 100) true 5).state = CircuitState.circuitOpen ∧
    (RecordResult (NewCircuitBreaker 1 100) true 5).failures ≠ 0 := by
  decide

/-- C2 (amended): counters are reset selectively, not on every state change.
On `Closed → Open` the failure counter keeps its just-incremented value and
the success counter is untouched; on `Open → HalfOpen` the success and trial
counters are reset to 0 but the failure counter is preserved; on
`HalfOpen → Open` only the trial counter is reset (failures keep the
incremented value, successes are preserved); on `HalfOpen → Closed` the
failure, success and trial counters are all reset to 0. -/
theorem transition_counter_reset_behavior (cb : CircuitBreaker) (now : Int) :
    (cb.state = CircuitState.circuitClosed → cb.failures + 1 ≥ cb.maxFailures →
      (RecordResult cb true now).state = CircuitState.circuitOpen ∧
      (RecordResult cb true now).failures = cb.failures + 1 ∧
      (RecordResult cb true now).successCount = cb.successCount) ∧
    (cb.state = CircuitState.circuitOpen → now - cb.lastFailTime > cb.resetTimeout →
      (CanAttempt cb now).2.state = CircuitState.circuitHalfOpen ∧
      (CanAttempt cb now).2.successCount = 0 ∧
      (CanAttempt cb now).2.halfOpenAttempts = 0 ∧
      (CanAttempt cb now).2.failures = cb.failures) ∧
    (cb.state = CircuitState.circuitHalfOpen →
      (RecordResult cb true now).state = CircuitState.circuitOpen ∧
      (RecordResult cb true now).failures = cb.failures + 1 ∧
      (RecordResult cb true now).halfOpenAttempts = 0 ∧
      (RecordResult cb true now).successCount = cb.successCount) ∧
    (cb.state = CircuitState.circuitHalfOpen → cb.successCount + 1 ≥ cb.halfOpenRequests →
      (RecordResult cb false now).state = CircuitState.circuitClosed ∧
      (RecordResult cb false now).failures = 0 ∧
      (RecordResult cb false now).successCount = 0 ∧
      (RecordResult cb false now).halfOpenAttempts = 0) := by
  obtain ⟨mf, rt, hor, st, f, sc, lft, hoa⟩ := cb
  refine ⟨?_, ?_, ?_, ?_⟩
  · intro h hmax
    have hst : st = CircuitState.circuitClosed := h
    subst hst
    have hmax1 : f + 1 ≥ mf := hmax
    simp [RecordResult, recordFailure, transitionToLocked, hmax1]
  · intro h hel
    have hst : st = CircuitState.circuitOpen := h
    subst hst
    have hel1 : now - lft > rt := hel
    simp [CanAttempt, transitionToLocked, hel1]
  · intro h
    have hst : st = CircuitState.circuitHalfOpen := h
    subst hst
    simp [RecordResult, recordFailure, transitionToLocked]
  · intro h hsucc
    have hst : st = CircuitState.circuitHalfOpen := h
    subst hst
    have hsucc1 : sc + 1 ≥ hor := hsucc
    simp [RecordResult, recordSuccess, transitionToLocked, hsucc1]

/-- Witness for `transition_counter_reset_behavior`: the `HalfOpen → Closed`
conjunct at a concrete breaker, with its hypotheses discharged. -/
theorem transition_counter_reset_behavior_witness :
    (RecordResult
        { NewCircuitBreaker 1 100 with
            state := CircuitState.circuitHalfOpen, failures := 1, lastFailTime := 0,
            halfOpenAttempts := 1 } false 7).state = CircuitState.circuitClosed ∧
    (RecordResult
        { NewCircuitBreaker 1 100 with
            state := CircuitState.circuitHalfOpen, failures := 1, lastFailTime := 0,
            halfOpenAttempts := 1 } false 7).failures = 0 ∧
    (RecordResult
        { NewCircuitBreaker 1 100 with
            state := CircuitState.circuitHalfOpen, failures := 1, lastFailTime := 0,
            halfOpenAttempts := 1 } false 7).successCount = 0 ∧
    (RecordResult
        { NewCircuitBreaker 1 100 with
            state := CircuitState.circuitHalfOpen, failures := 1, lastFailTime := 0,
            halfOpenAttempts := 1 } false 7).halfOpenAttempts = 0 :=
  (transition_counter_reset_behavior
      { NewCircuitBreaker 1 100 with
          state := CircuitState.circuitHalfOpen, failures := 1, lastFailTime := 0,
          halfOpenAttempts := 1 } 7).2.2.2 rfl (by decide)

/-- A `CanAttempt` call that returns `false` leaves the breaker unchanged
(all three `false` paths of the source return without mutating anything). -/
theorem canAttempt_false_frame (cb : CircuitBreaker) (now : Int)
    (h : (CanAttempt cb now).1 = false) : (CanAttempt cb now).2 = cb := by
  obtain ⟨mf, rt, hor, st, f, sc, lft, hoa⟩ := cb
  cases st <;> simp [CanAttempt] at h ⊢ <;> split_ifs at h ⊢ <;> simp_all

/-- C7: whenever `CanAttempt()` is `false`, `Call(fn)` returns the synthetic
"circuit breaker is open" error, never invokes `fn`, forwards nothing to
`RecordResult`, and leaves the breaker's state and counters unchanged. -/
theorem call_rejected_when_circuit_open (cb : CircuitBreaker) (now : Int) (fnErr : Bool)
    (h : (CanAttempt cb now).1 = false) :
    Call cb now fnErr = (CallResult.circuitOpenError, false, cb) := by
  have hframe := canAttempt_false_frame cb now h
  simp [Call, h, hframe]

/-- Witness for `call_rejected_when_circuit_open`: a freshly opened breaker
rejects a call made before `resetTimeout` has elapsed. -/
theorem call_rejected_when_circuit_open_witness :
    Call
      { NewCircuitBreaker 3 100 with
          state := CircuitState.circuitOpen, failures := 3, lastFailTime := 0 }
      50 true =
    (CallResult.circuitOpenError, false,
      { NewCircuitBreaker 3 100 with
          state := CircuitState.circuitOpen, failures := 3, lastFailTime := 0 }) :=
  call_rejected_when_circuit_open
    { NewCircuitBreaker 3 100 with
        state := CircuitState.circuitOpen, failures := 3, lastFailTime := 0 }
    50 true (by decide)

/-- C9: recording a failing result while the breaker is `Open` increments the
failure counter and moves `lastFailTime` to the current instant without
changing the state or any other field; consequently every `CanAttempt` call
made at an instant within `resetTimeout` of the new failure time returns
`false` (the `Open → HalfOpen` transition is postponed past
`now + resetTimeout`). -/
theorem recordFailure_while_open_frame (cb : CircuitBreaker) (now : Int)
    (hstate : cb.state = CircuitState.circuitOpen) :
    RecordResult cb true now =
      { cb with failures := cb.failures + 1, lastFailTime := now } ∧
    ∀ t, t - now ≤ cb.resetTimeout →
      CanAttempt (RecordResult cb true now) t =
        (false, RecordResult cb true now) := by
  obtain ⟨mf, rt, hor, st, f, sc, lft, hoa⟩ := cb
  have hst : st = CircuitState.circuitOpen := hstate
  subst hst
  have hrec :
      RecordResult ⟨mf, rt, hor, CircuitState.circuitOpen, f, sc, lft, hoa⟩ true now =
      ⟨mf, rt, hor, CircuitState.circuitOpen, f + 1, sc, now, hoa⟩ := by
    simp [RecordResult, recordFailure]
  refine ⟨hrec, ?_⟩
  intro t ht
  have ht1 : ¬ (t - now > rt) := by
    have : t - now ≤ rt := ht
    omega
  rw [hrec]
  simp [CanAttempt, ht1]

/-- Witness for `recordFailure_while_open_frame` at a concrete open breaker,
with the dwell conjunct instantiated at `t = 100`. -/
theorem recordFailure_while_open_frame_witness :
    RecordResult
        { NewCircuitBreaker 3 100 with
            state := CircuitState.circuitOpen, failures := 3, lastFailTime := 0 }
        true 5 =
      { ({ NewCircuitBreaker 3 100 with
            state := CircuitState.circuitOpen, failures := 3, lastFailTime := 0 }
          : CircuitBreaker) with failures := 3 + 1, lastFailTime := 5 } ∧
    CanAttempt
        (RecordResult
          { NewCircuitBreaker 3 100 with
              state := CircuitState.circuitOpen, failures := 3, lastFailTime := 0 }
          true 5) 100 =
      (false,
        RecordResult
          { NewCircuitBreaker 3 100 with
              state := CircuitState.circuitOpen, failures := 3, lastFailTime := 0 }
          true 5) :=
  ⟨(recordFailure_while_open_frame
      { NewCircuitBreaker 3 100 with
          state := CircuitState.circuitOpen, failures := 3, lastFailTime := 0 }
      5 rfl).1,
   (recordFailure_while_open_frame
      { NewCircuitBreaker 3 100 with
          state := CircuitState.circuitOpen, failures := 3, lastFailTime := 0 }
      5 rfl).2 100 (by decide)⟩

/-- Closed form of the always-failing run: starting from a restart count
`rc ≤ m`, the work function is invoked once per missing restart plus once,
and the loop exits with restart count `m + 1`. -/
theorem runGoroutineAlwaysFail_eq (m rc : Int) (h : rc ≤ m) :
    runGoroutineAlwaysFail m rc = ((m - rc).toNat + 1, m + 1) := by
  unfold runGoroutineAlwaysFail
  split_ifs with hgt
  · have hm : rc = m := by omega
    subst hm
    simp [Prod.ext_iff]
  · have h1 : rc + 1 ≤ m := by omega
    rw [runGoroutineAlwaysFail_eq m (rc + 1) h1]
    simp only [Prod.ext_iff]
    constructor
    · omega
    · trivial
termination_by (m - rc).toNat
decreasing_by omega

/-- C3: a supervised worker whose work function errors on every invocation
(and whose context is never cancelled) is run `MaxRestarts + 1` times in
total — the initial run plus exactly `MaxRestarts` restarts — after which the
loop returns (the worker is permanently stopped, no further invocations);
the final `restartCount` is exactly `MaxRestarts + 1` and hence never
exceeds `MaxRestarts + 1`. -/
theorem supervisor_restart_budget (maxRestarts : Int) (h : 0 ≤ maxRestarts) :
    (runGoroutineAlwaysFail maxRestarts 0).1 = maxRestarts.toNat + 1 ∧
    (runGoroutineAlwaysFail maxRestarts 0).2 = maxRestarts + 1 ∧
    (runGoroutineAlwaysFail maxRestarts 0).2 ≤ maxRestarts + 1 := by
  have he := runGoroutineAlwaysFail_eq maxRestarts 0 h
  rw [he]
  refine ⟨by simp, rfl, by omega⟩

/-- Witness for `supervisor_restart_budget` at `MaxRestarts = 2`: three
invocations (two restarts), final restart count 3. -/
theorem supervisor_restart_budget_witness :
    (runGoroutineAlwaysFail 2 0).1 = (2 : Int).toNat + 1 ∧
    (runGoroutineAlwaysFail 2 0).2 = 2 + 1 ∧
    (runGoroutineAlwaysFail 2 0).2 ≤ 2 + 1 :=
  supervisor_restart_budget 2 (by decide)

/-- Truncating an integer-valued rational returns that integer. -/
theorem ratTruncToInt_intCast (z : Int) : ratTruncToInt (z : ℚ) = z := by
  unfold ratTruncToInt
  split_ifs <;> simp

/-- With an integer factor `k ≥ 1` and a non-negative starting delay, the
backoff loop run at least once computes `min (d * k ^ n) maxD`. -/
theorem backoffLoop_intCast (k maxD : Int) (hk : 1 ≤ k) :
    ∀ (n : Nat) (d : Int), 0 ≤ d → n ≠ 0 →
      backoffLoop (k : ℚ) maxD d n = min (d * k ^ n) maxD := by
  intro n
  induction n with
  | zero => intro d _ hn; exact absurd rfl hn
  | succ n ih =>
      intro d hd _
      have hog : ratTruncToInt ((d : ℚ) * (k : ℚ)) = d * k := by
        rw [show ((d : ℚ) * (k : ℚ)) = ((d * k : Int) : ℚ) by push_cast; ring]
        exact ratTruncToInt_intCast (d * k)
      have hk0 : (0 : Int) ≤ k := by omega
      have hdk : 0 ≤ d * k := mul_nonneg hd hk0
      have hpow : (1 : Int) ≤ k ^ n := one_le_pow₀ hk
      have hmono : d * k ≤ d * k ^ (n + 1) := by
        calc d * k = d * k * 1 := by ring
        _ ≤ d * k * k ^ n := by exact mul_le_mul_of_nonneg_left hpow hdk
        _ = d * k ^ (n + 1) := by ring
      by_cases hcap : d * k > maxD
      · have hstep : backoffLoop (k : ℚ) maxD d (n + 1) = maxD := by
          simp only [backoffLoop, hog]
          rw [if_pos hcap]
        rw [hstep, eq_comm, min_eq_right]
        omega
      · have hstep :
            backoffLoop (k : ℚ) maxD d (n + 1) = backoffLoop (k : ℚ) maxD (d * k) n := by
          simp only [backoffLoop, hog]
          rw [if_neg hcap]
        rw [hstep]
        rcases Nat.eq_zero_or_pos n with hn0 | hn1
        · subst hn0
          simp only [backoffLoop, zero_add, pow_one]
          rw [eq_comm, min_eq_left]
          omega
        · rw [ih (d * k) hdk (by omega)]
          congr 1
          ring

/-- C4 counterexample: (a) for `n = 1` the source returns `RestartDelay`
uncapped (the Go loop body never runs, so `MaxBackoffDelay` is never
applied), while the claimed formula yields `min(RestartDelay, MaxBackoffDelay)`;
(b) for a fractional factor the per-iteration `float64 → Duration`
truncation makes the computed delay diverge from the exact formula. -/
theorem calculateBackoff_formula_counterexample :
    calculateBackoff
      { MaxRestarts := 5, RestartDelay := 100, BackoffFactor := 2,
        MaxBackoffDelay := 50 } 1 = 100 ∧
    min ((100 : Int) * 2 ^ (1 - 1)) 50 = 50 ∧
    (100 : Int) ≠ 50 ∧
    calculateBackoff
      { MaxRestarts := 5, RestartDelay := 1, BackoffFactor := 3 / 2,
        MaxBackoffDelay := 1000 } 3 = 1 ∧
    ((calculateBackoff
        { MaxRestarts := 5, RestartDelay := 1, BackoffFactor := 3 / 2,
          MaxBackoffDelay := 1000 } 3 : ℚ) ≠
      min ((1 : ℚ) * (3 / 2) ^ (3 - 1)) 1000) := by
  have hstep : ratTruncToInt ((3 : ℚ) / 2) = 1 := by
    rw [ratTruncToInt, if_pos (by norm_num)]
    rw [Int.floor_eq_iff]
    norm_num
  have hcomp :
      calculateBackoff
        { MaxRestarts := 5, RestartDelay := 1, BackoffFactor := 3 / 2,
          MaxBackoffDelay := 1000 } 3 = 1 := by
    show backoffLoop (3 / 2) 1000 1 (1 + 1) = 1
    norm_num [backoffLoop, hstep]
  refine ⟨rfl, by decide, by decide, hcomp, ?_⟩
  rw [hcomp]
  rw [show ((1 : ℚ) * (3 / 2) ^ (3 - 1)) = 9 / 4 by norm_num]
  rw [min_eq_left (by norm_num)]
  norm_num

/-- C4 (amended): the backoff before the `n`-th restart is deterministic
given `n`; for `n = 1` it equals `RestartDelay` (uncapped), and for `n ≥ 2`,
whenever `BackoffFactor` is an integer `k ≥ 1` (so the per-step `float64`
truncation is exact) and `RestartDelay ≥ 0`, it equals
`min (RestartDelay * k ^ (n-1), MaxBackoffDelay)`. -/
theorem calculateBackoff_formula_amended (policy : RestartPolicy) (k n : Int)
    (hfac : policy.BackoffFactor = (k : ℚ)) (hk : 1 ≤ k)
    (hd : 0 ≤ policy.RestartDelay) (hn : 1 ≤ n) :
    calculateBackoff policy n =
      if n = 1 then policy.RestartDelay
      else min (policy.RestartDelay * k ^ (n - 1).toNat) policy.MaxBackoffDelay := by
  unfold calculateBackoff
  rw [hfac]
  by_cases h1 : n = 1
  · subst h1
    simp [backoffLoop]
  · rw [if_neg h1]
    exact backoffLoop_intCast k policy.MaxBackoffDelay hk (n - 1).toNat
      policy.RestartDelay hd (by omega)

/-- Witness for `calculateBackoff_formula_amended`: base delay 10, factor 2,
cap 30, third restart: `min (10 * 4) 30 = 30`. -/
theorem calculateBackoff_formula_amended_witness :
    calculateBackoff
      { MaxRestarts := 5, RestartDelay := 10, BackoffFactor := ((2 : Int) : ℚ),
        MaxBackoffDelay := 30 } 3 =
      if (3 : Int) = 1
      then (10 : Int)
      else min ((10 : Int) * 2 ^ ((3 : Int) - 1).toNat) 30 :=
  calculateBackoff_formula_amended
    { MaxRestarts := 5, RestartDelay := 10, BackoffFactor := ((2 : Int) : ℚ),
      MaxBackoffDelay := 30 } 2 3 rfl (by decide) (by decide) (by decide)

/-- The stored status after `updateStatus` is always the requested one. -/
theorem updateStatus_status (hm : HealthMonitor) (s : HealthStatus) :
    (updateStatus hm s).status = s := by
  unfold updateStatus
  split_ifs with h
  · exact h
  · rfl

/-- `updateStatus` never touches the metrics. -/
theorem updateStatus_metrics (hm : HealthMonitor) (s : HealthStatus) :
    (updateStatus hm s).metrics = hm.metrics := by
  unfold updateStatus
  split_ifs <;> rfl

/-- C5 counterexample: `RecordMessageSent` does not touch
`ConsecutiveErrors`: with one error outstanding, recording a sent message
leaves the counter at 1, not 0 — so it is not a consecutive-error-resetting
success event as the claim states. -/
theorem recordMessageSent_consecutiveErrors_counterexample :
    (RecordMessageSent
        { NewHealthMonitor 10 with
            metrics := { ConnectionMetrics.zero with ConsecutiveErrors := 1 } }
        7).metrics.ConsecutiveErrors ≠ 0 := by
  decide

/-- C5 (amended): `RecordReconnectAttempt` with `success = true`, a periodic
probe invocation returning nil, and `RecordConnectionEstablished` all leave
`consecutiveErrors` equal to 0; `RecordMessageSent` and
`RecordMessageReceived` leave it unchanged (they never touch it). -/
theorem success_events_reset_consecutiveErrors (hm : HealthMonitor) (now : Int) :
    (RecordReconnectAttempt hm true now).metrics.ConsecutiveErrors = 0 ∧
    (performHealthCheck hm (some false) now).metrics.ConsecutiveErrors = 0 ∧
    (RecordConnectionEstablished hm now).metrics.ConsecutiveErrors = 0 ∧
    (RecordMessageSent hm now).metrics.ConsecutiveErrors =
      hm.metrics.ConsecutiveErrors ∧
    (RecordMessageReceived hm now).metrics.ConsecutiveErrors =
      hm.metrics.ConsecutiveErrors := by
  refine ⟨rfl, ?_, rfl, rfl, rfl⟩
  simp [performHealthCheck, updateStatus_metrics]

/-- C6: after a periodic health check (with the default thresholds 5 and 3
set by `NewHealthMonitor`), the status is `Healthy` when the resulting
`consecutiveErrors` is 0, `Unhealthy` when it is ≥ 5, `Degraded` when
`3 ≤ consecutiveErrors < 5`, and `Healthy` for the remaining positive counts
below 3. -/
theorem healthCheck_status_thresholds (hm : HealthMonitor) (isErr : Bool) (now : Int)
    (hu : hm.unhealthyThreshold = 5) (hd : hm.degradedThreshold = 3) :
    ((performHealthCheck hm (some isErr) now).metrics.ConsecutiveErrors = 0 →
      (performHealthCheck hm (some isErr) now).status = HealthStatus.healthHealthy) ∧
    ((performHealthCheck hm (some isErr) now).metrics.ConsecutiveErrors ≥ 5 →
      (performHealthCheck hm (some isErr) now).status = HealthStatus.healthUnhealthy) ∧
    (3 ≤ (performHealthCheck hm (some isErr) now).metrics.ConsecutiveErrors ∧
        (performHealthCheck hm (some isErr) now).metrics.ConsecutiveErrors < 5 →
      (performHealthCheck hm (some isErr) now).status = HealthStatus.healthDegraded) ∧
    (0 < (performHealthCheck hm (some isErr) now).metrics.ConsecutiveErrors ∧
        (performHealthCheck hm (some isErr) now).metrics.ConsecutiveErrors < 3 →
      (performHealthCheck hm (some isErr) now).status = HealthStatus.healthHealthy) := by
  have hms : (performHealthCheck hm (some isErr) now).status =
      (if (performHealthCheck hm (some isErr) now).metrics.ConsecutiveErrors = 0 then
        HealthStatus.healthHealthy
       else if (performHealthCheck hm (some isErr) now).metrics.ConsecutiveErrors ≥ 5 then
        HealthStatus.healthUnhealthy
       else if (performHealthCheck hm (some isErr) now).metrics.ConsecutiveErrors ≥ 3 then
        HealthStatus.healthDegraded
       else HealthStatus.healthHealthy) := by
    cases isErr <;>
      simp [performHealthCheck, updateStatus_status, updateStatus_metrics, hu, hd]
  rw [hms]
  refine ⟨fun h0 => by rw [if_pos h0], fun h5 => ?_, fun h35 => ?_, fun h03 => ?_⟩
  · rw [if_neg (by omega), if_pos (by omega)]
  · rw [if_neg (by omega), if_neg (by omega), if_pos (by omega)]
  · rw [if_neg (by omega), if_neg (by omega), if_neg (by omega)]

/-- Witness for `healthCheck_status_thresholds`: a monitor with 4 errors
outstanding takes a failing probe to 5 consecutive errors and turns
`Unhealthy`. -/
theorem healthCheck_status_thresholds_witness :
    (performHealthCheck
        { NewHealthMonitor 10 with
            metrics := { ConnectionMetrics.zero with ConsecutiveErrors := 4 } }
        (some true) 7).status = HealthStatus.healthUnhealthy :=
  (healthCheck_status_thresholds
    { NewHealthMonitor 10 with
        metrics := { ConnectionMetrics.zero with ConsecutiveErrors := 4 } }
    true 7 rfl rfl).2.1 (by decide)

/-- C8: starting from any window within capacity (as every reachable window
is, with the constructor's `maxLatencySamples = 100 > 0`), a `RecordLatency`
call leaves at most `maxLatencySamples` retained samples, dropping the
oldest first (the retained window is a suffix of the old window plus the new
sample, of length `min (old + 1) maxLatencySamples`); `CurrentLatency` is
the sample just recorded and `AverageLatency` is the (integer, truncated
toward zero as Go duration division does) arithmetic mean of exactly the
retained samples. -/
theorem recordLatency_window_and_average (hm : HealthMonitor) (latency : Int)
    (hmax : 0 < hm.maxLatencySamples)
    (hlen : hm.latencyWindow.length ≤ hm.maxLatencySamples.toNat) :
    (RecordLatency hm latency).latencyWindow.length ≤ hm.maxLatencySamples.toNat ∧
    (RecordLatency hm latency).latencyWindow.length =
      min (hm.latencyWindow.length + 1) hm.maxLatencySamples.toNat ∧
    (RecordLatency hm latency).latencyWindow <:+ (hm.latencyWindow ++ [latency]) ∧
    (RecordLatency hm latency).metrics.CurrentLatency = latency ∧
    (RecordLatency hm latency).metrics.AverageLatency =
      Int.tdiv (RecordLatency hm latency).latencyWindow.sum
        ((RecordLatency hm latency).latencyWindow.length : Int) := by
  have hmaxNat : 0 < hm.maxLatencySamples.toNat := by omega
  simp only [RecordLatency]
  by_cases hov :
      (hm.latencyWindow ++ [latency]).length > hm.maxLatencySamples.toNat
  · simp only [if_pos hov]
    refine ⟨?_, ?_, List.drop_suffix _ _, by trivial, ?_⟩
    · simp only [List.length_drop, List.length_append, List.length_cons,
        List.length_nil]
      omega
    · simp only [List.length_drop, List.length_append, List.length_cons,
        List.length_nil] at hov ⊢
      omega
    · rw [List.sum_eq_foldl]
  · simp only [if_neg hov]
    refine ⟨?_, ?_, List.suffix_rfl, by trivial, ?_⟩
    · simp only [List.length_append, List.length_cons, List.length_nil] at hov ⊢
      omega
    · simp only [List.length_append, List.length_cons, List.length_nil] at hov ⊢
      omega
    · rw [List.sum_eq_foldl]

/-- Witness for `recordLatency_window_and_average`: window capacity 2 holding
`[1, 2]`, recording sample 10 retains `[2, 10]` with mean 6. -/
theorem recordLatency_window_and_average_witness :
    (RecordLatency
        { NewHealthMonitor 10 with maxLatencySamples := 2, latencyWindow := [1, 2] }
        10).latencyWindow.length ≤ (2 : Int).toNat ∧
    (RecordLatency
        { NewHealthMonitor 10 with maxLatencySamples := 2, latencyWindow := [1, 2] }
        10).latencyWindow.length = min ([(1 : Int), 2].length + 1) (2 : Int).toNat ∧
    (RecordLatency
        { NewHealthMonitor 10 with maxLatencySamples := 2, latencyWindow := [1, 2] }
        10).latencyWindow <:+ ([(1 : Int), 2] ++ [10]) ∧
    (RecordLatency
        { NewHealthMonitor 10 with maxLatencySamples := 2, latencyWindow := [1, 2] }
        10).metrics.CurrentLatency = 10 ∧
    (RecordLatency
        { NewHealthMonitor 10 with maxLatencySamples := 2, latencyWindow := [1, 2] }
        10).metrics.AverageLatency =
      Int.tdiv
        (RecordLatency
          { NewHealthMonitor 10 with maxLatencySamples := 2, latencyWindow := [1, 2] }
          10).latencyWindow.sum
        ((RecordLatency
          { NewHealthMonitor 10 with maxLatencySamples := 2, latencyWindow := [1, 2] }
          10).latencyWindow.length : Int) :=
  recordLatency_window_and_average
    { NewHealthMonitor 10 with maxLatencySamples := 2, latencyWindow := [1, 2] }
    10 (by decide) (by decide)

/-- C10: the `ReconnectionManager` contract — `ShouldReconnect` is true iff
reconnection is enabled and the attempt counter is strictly below
`maxAttempts`; `NextBackoff` delegates to the pluggable backoff function of
the attempt count when one is set and returns the fixed delay otherwise;
`Reset` zeroes the attempt counter and `IncrementAttempts` raises it by
exactly 1, each leaving every other field unchanged. -/
theorem reconnectionManager_contract (r : ReconnectionManager) :
    (ShouldReconnect r = true ↔ r.enabled = true ∧ r.attempts < r.maxAttempts) ∧
    (∀ f, r.backoffFunc = some f → NextBackoff r = f r.attempts) ∧
    (r.backoffFunc = none → NextBackoff r = r.delay) ∧
    Reset r = { r with attempts := 0 } ∧
    IncrementAttempts r = { r with attempts := r.attempts + 1 } := by
  refine ⟨?_, ?_, ?_, rfl, rfl⟩
  · simp [ShouldReconnect, Bool.and_eq_true, decide_eq_true_iff]
  · intro f hf
    simp [NextBackoff, hf]
  · intro hf
    simp [NextBackoff, hf]

/-- Witness for `reconnectionManager_contract` at a concrete manager with a
doubling backoff function and one attempt made. -/
theorem reconnectionManager_contract_witness :
    NextBackoff ⟨true, 1, 5, 7, some (fun k => 2 * k)⟩ = (fun k => 2 * k) 1 ∧
    ShouldReconnect ⟨true, 1, 5, 7, some (fun k => 2 * k)⟩ = true ∧
    Reset ⟨true, 1, 5, 7, some (fun k => 2 * k)⟩ =
      ⟨true, 0, 5, 7, some (fun k => 2 * k)⟩ ∧
    IncrementAttempts ⟨true, 1, 5, 7, some (fun k => 2 * k)⟩ =
      ⟨true, 1 + 1, 5, 7, some (fun k => 2 * k)⟩ :=
  ⟨(reconnectionManager_contract ⟨true, 1, 5, 7, some (fun k => 2 * k)⟩).2.1
      (fun k => 2 * k) rfl,
   (reconnectionManager_contract ⟨true, 1, 5, 7, some (fun k => 2 * k)⟩).1.mpr
      ⟨rfl, by decide⟩,
   (reconnectionManager_contract ⟨true, 1, 5, 7, some (fun k => 2 * k)⟩).2.2.2.1,
   (reconnectionManager_contract ⟨true, 1, 5, 7, some (fun k => 2 * k)⟩).2.2.2.2⟩

end Network
end TeneoAgentSDK
